import Mathlib

/-!
Shallow embedding of the treeow integration's core
(`custom_components/treeow`): the response-envelope success check, the
command send-and-verify path, the control-event consumer, the digital-model
cache, the poll cycle, the token updater, the attribute parser's select
table, the sensor value normalization and the boolean reader.  Each
definition is translated from the named Python function; theorems settle
the spec's claims about them.
-/

namespace Treeow

/-- A JSON-ish scalar value as it appears in device payloads and commands
(Python values flowing through `value_comparison_table`, snapshots and
command dicts).  Enum codes are ints, labels are strings, switch commands
are bools. -/
inductive Val where
  | vint : Int → Val
  | vstr : String → Val
  | vbool : Bool → Val
deriving DecidableEq, Repr

/-- Python `str()` of a scalar, used by `TreeowSelect._update_value`'s
`str(value)` fallback. -/
def pyStr : Val → String
  | .vint n => toString n
  | .vstr s => s
  | .vbool b => if b then "True" else "False"

/-- Python-dict semantics: first-match lookup (`d[k]` / `k in d`),
polymorphic in the key and value types. -/
def dget {κ α : Type} [DecidableEq κ] : List (κ × α) → κ → Option α
  | [], _ => none
  | p :: rest, k => if p.1 = k then some p.2 else dget rest k

/-- Python-dict assignment `d[k] = v`: overwrite in place when the key is
present, append otherwise (preserving insertion order, as CPython does). -/
def dinsert {κ α : Type} [DecidableEq κ] (d : List (κ × α)) (k : κ) (v : α) :
    List (κ × α) :=
  if d.any (fun p => p.1 = k) then
    d.map (fun p => if p.1 = k then (k, v) else p)
  else
    d ++ [(k, v)]

/-- Python-dict deletion `del d[k]`. -/
def ddel {κ α : Type} [DecidableEq κ] (d : List (κ × α)) (k : κ) : List (κ × α) :=
  d.filter (fun p => p.1 ≠ k)

/-- Sequence of Python-dict assignments (`for ...: d[k] = v`). -/
def insertEntries {κ α : Type} [DecidableEq κ] (acc : List (κ × α))
    (es : List (κ × α)) : List (κ × α) :=
  es.foldl (fun a p => dinsert a p.1 p.2) acc

theorem dget_map_overwrite_self {κ α : Type} [DecidableEq κ] (d : List (κ × α)) (k : κ) (v : α)
    (h : (d.any fun p => p.1 = k) = true) :
    dget (d.map (fun p => if p.1 = k then (k, v) else p)) k = some v := by
  induction d with
  | nil => simp at h
  | cons p rest ih =>
    by_cases hk : p.1 = k
    · simp [dget, hk]
    · simp only [List.any_cons, hk, decide_False, Bool.false_or] at h
      simp only [List.map_cons, if_neg hk, dget, hk, if_false]
      exact ih h

theorem dget_map_overwrite_ne {κ α : Type} [DecidableEq κ] (d : List (κ × α)) (k : κ) (v : α) (k' : κ) (hne : k' ≠ k) :
    dget (d.map (fun p => if p.1 = k then (k, v) else p)) k' = dget d k' := by
  induction d with
  | nil => rfl
  | cons p rest ih =>
    by_cases hk : p.1 = k
    · simp only [List.map_cons, if_pos hk, dget, hk]
      rw [if_neg (fun h => hne h.symm), if_neg (fun h : k = k' => hne h.symm)]
      exact ih
    · simp only [List.map_cons, if_neg hk, dget]
      by_cases ha : p.1 = k'
      · simp [ha]
      · rw [if_neg ha, if_neg ha]
        exact ih

theorem dget_append_single_self {κ α : Type} [DecidableEq κ] (d : List (κ × α)) (k : κ) (v : α)
    (h : (d.any fun p => p.1 = k) = false) :
    dget (d ++ [(k, v)]) k = some v := by
  induction d with
  | nil => simp [dget]
  | cons p rest ih =>
    simp only [List.any_cons, Bool.or_eq_false_iff, decide_eq_false_iff_not] at h
    simp only [List.cons_append, dget, if_neg h.1]
    exact ih (by simp [h.2])

theorem dget_append_single_ne {κ α : Type} [DecidableEq κ] (d : List (κ × α)) (k : κ) (v : α) (k' : κ) (hne : k' ≠ k) :
    dget (d ++ [(k, v)]) k' = dget d k' := by
  induction d with
  | nil => simp [dget, if_neg (fun h : k = k' => hne h.symm)]
  | cons p rest ih =>
    simp only [List.cons_append, dget]
    by_cases ha : p.1 = k'
    · simp [ha]
    · rw [if_neg ha, if_neg ha]
      exact ih

theorem dget_dinsert_self {κ α : Type} [DecidableEq κ] (d : List (κ × α)) (k : κ) (v : α) :
    dget (dinsert d k v) k = some v := by
  unfold dinsert
  by_cases h : (d.any fun p => p.1 = k) = true
  · rw [if_pos h]
    exact dget_map_overwrite_self d k v h
  · rw [if_neg h]
    exact dget_append_single_self d k v (Bool.not_eq_true _ ▸ h)

theorem dget_dinsert_ne {κ α : Type} [DecidableEq κ] (d : List (κ × α)) (k : κ) (v : α) (k' : κ) (hne : k' ≠ k) :
    dget (dinsert d k v) k' = dget d k' := by
  unfold dinsert
  by_cases h : (d.any fun p => p.1 = k) = true
  · rw [if_pos h]
    exact dget_map_overwrite_ne d k v k' hne
  · rw [if_neg h]
    exact dget_append_single_ne d k v k' hne

theorem dget_insertEntries_notmem {κ α : Type} [DecidableEq κ] (es : List (κ × α)) (acc : List (κ × α)) (k : κ)
    (h : k ∉ es.map Prod.fst) :
    dget (insertEntries acc es) k = dget acc k := by
  induction es generalizing acc with
  | nil => rfl
  | cons p rest ih =>
    simp only [List.map_cons, List.mem_cons, not_or] at h
    simp only [insertEntries, List.foldl_cons]
    rw [show (rest.foldl (fun a p => dinsert a p.1 p.2) (dinsert acc p.1 p.2)) =
        insertEntries (dinsert acc p.1 p.2) rest from rfl] at *
    rw [ih (dinsert acc p.1 p.2) h.2, dget_dinsert_ne _ _ _ _ h.1]

theorem dget_insertEntries_mem {κ α : Type} [DecidableEq κ] (es : List (κ × α)) (acc : List (κ × α)) (k : κ) (v : α)
    (hnd : (es.map Prod.fst).Nodup) (hmem : (k, v) ∈ es) :
    dget (insertEntries acc es) k = some v := by
  induction es generalizing acc with
  | nil => simp at hmem
  | cons p rest ih =>
    simp only [List.map_cons, List.nodup_cons] at hnd
    simp only [insertEntries, List.foldl_cons]
    rw [show (rest.foldl (fun a p => dinsert a p.1 p.2) (dinsert acc p.1 p.2)) =
        insertEntries (dinsert acc p.1 p.2) rest from rfl]
    rcases List.mem_cons.mp hmem with heq | hrest
    · subst heq
      have : k ∉ rest.map Prod.fst := by simpa using hnd.1
      rw [dget_insertEntries_notmem rest _ k this, dget_dinsert_self]
    · exact ih _ hnd.2 hrest

theorem insertEntries_fresh {κ α : Type} [DecidableEq κ] (es : List (κ × α)) (acc : List (κ × α))
    (hnd : (es.map Prod.fst).Nodup)
    (hfresh : ∀ k ∈ es.map Prod.fst, acc.all (fun p => p.1 ≠ k)) :
    insertEntries acc es = acc ++ es := by
  induction es generalizing acc with
  | nil => simp [insertEntries]
  | cons p rest ih =>
    simp only [List.map_cons, List.nodup_cons] at hnd
    simp only [insertEntries, List.foldl_cons]
    rw [show (rest.foldl (fun a q => dinsert a q.1 q.2) (dinsert acc p.1 p.2)) =
        insertEntries (dinsert acc p.1 p.2) rest from rfl]
    have hp : acc.all (fun q => q.1 ≠ p.1) := hfresh p.1 (by simp)
    have hins : dinsert acc p.1 p.2 = acc ++ [(p.1, p.2)] := by
      unfold dinsert
      rw [if_neg]
      intro hany
      rcases List.any_eq_true.mp hany with ⟨q, hq, hq1⟩
      have := List.all_eq_true.mp hp q hq
      simp only [decide_eq_true_eq] at hq1 this
      exact this hq1
    rw [hins, ih (acc ++ [(p.1, p.2)]) hnd.2, List.append_assoc]
    · rfl
    · intro k hk
      rw [List.all_eq_true]
      intro q hq
      rcases List.mem_append.mp hq with hq | hq
      · exact List.all_eq_true.mp (hfresh k (by simp [hk])) q hq
      · simp only [List.mem_singleton] at hq
        subst hq
        simp only [decide_eq_true_eq]
        intro hcontra
        exact hnd.1 (hcontra ▸ hk)

/-- Substring test on character lists: `listPrefixOf pat s` is true when
`pat` is an initial segment of `s` (embedding of Python's `in` operator
support below). -/
def listPrefixOf : List Char → List Char → Bool
  | [], _ => true
  | _ :: _, [] => false
  | a :: as, b :: bs => a = b && listPrefixOf as bs

/-- `listInfixOf pat s` is true when `pat` occurs contiguously in `s`. -/
def listInfixOf (pat s : List Char) : Bool :=
  match s with
  | [] => pat.isEmpty
  | _ :: rest => listPrefixOf pat s || listInfixOf pat rest

/-- Embedding of Python's `sub in s` substring test. -/
def containsSub (s pat : String) : Bool :=
  listInfixOf pat.toList s.toList

/-- The `meta` sub-object of a response envelope: fields `code` and
`message`, each possibly absent. -/
structure MetaEnv where
  code : Option Int
  message : Option String
deriving DecidableEq, Repr

/-- The `result` sub-object of a response envelope: fields `code` and
`msg`, each possibly absent. -/
structure ResultEnv where
  code : Option Int
  msg : Option String
deriving DecidableEq, Repr

/-- A remote response envelope as inspected by
`TreeowClient._assert_response_successful`: either a `meta` sub-object, a
`result` sub-object, or bare `code`/`msg` fields. -/
structure Envelope where
  meta : Option MetaEnv
  result : Option ResultEnv
  code : Option Int
  msg : Option String
deriving DecidableEq, Repr

/-- Python `str()` rendering of the `meta` dict (keys `'code'` and
`'message'` in insertion order), against which the code runs its
`'error' in str(meta)` marker test. -/
def metaStr (m : MetaEnv) : String :=
  match m.code, m.message with
  | some c, some s => "\x7b'code': " ++ toString c ++ ", 'message': '" ++ s ++ "'\x7d"
  | some c, none => "\x7b'code': " ++ toString c ++ "\x7d"
  | none, some s => "\x7b'message': '" ++ s ++ "'\x7d"
  | none, none => "\x7b\x7d"

/-- Python `str()` rendering of the `result` dict (keys `'code'` and
`'msg'`). -/
def resultStr (r : ResultEnv) : String :=
  match r.code, r.msg with
  | some c, some s => "\x7b'code': " ++ toString c ++ ", 'msg': '" ++ s ++ "'\x7d"
  | some c, none => "\x7b'code': " ++ toString c ++ "\x7d"
  | none, some s => "\x7b'msg': '" ++ s ++ "'\x7d"
  | none, none => "\x7b\x7d"

/-- Embedding of `TreeowClient._assert_response_successful`: raising
`TreeowClientException` is modelled as returning `.error` with the
exception's message.  The three branches mirror the source: a `meta`
sub-object, else a `result` sub-object, else bare `code`/`msg` with
defaults `0` and `''`. -/
def assert_response_successful (resp : Envelope) : Except String Unit :=
  match resp.meta with
  | some m =>
      if m.code.getD 0 ≠ 200 ∨ containsSub (metaStr m) "error" then
        .error ("API response error: " ++ m.message.getD "Unknown error")
      else
        .ok ()
  | none =>
    match resp.result with
    | some r =>
        if r.code.getD 0 ≠ 200 ∨ containsSub (resultStr r) "error" then
          .error ("API response error: " ++ r.msg.getD "Unknown error")
        else
          .ok ()
    | none =>
        let code := resp.code.getD 0
        let msg := resp.msg.getD ""
        if code ≠ 200 ∨ containsSub msg "error" then
          .error ("API response error: " ++ (if msg = "" then "Unknown error" else msg))
        else
          .ok ()


theorem getD_zero_eq_200_iff (o : Option Int) : o = some 200 ↔ o.getD 0 = 200 := by
  cases o <;> simp

/-- Claim C8: the response success check accepts an envelope only if its
status code field equals 200 and no embedded error marker is present,
supporting exactly the three envelope shapes `meta.code`, `result.code`
and bare `code`/`msg`; an envelope carrying none of these shapes is
rejected (fails closed). -/
theorem response_envelope_success_check (resp : Envelope) :
    (assert_response_successful resp = .ok () ↔
      ((∃ m, resp.meta = some m ∧ m.code = some 200 ∧
          containsSub (metaStr m) "error" = false) ∨
       (resp.meta = none ∧ ∃ r, resp.result = some r ∧ r.code = some 200 ∧
          containsSub (resultStr r) "error" = false) ∨
       (resp.meta = none ∧ resp.result = none ∧ resp.code = some 200 ∧
          containsSub (resp.msg.getD "") "error" = false))) ∧
    (resp.meta = none → resp.result = none → resp.code = none →
      ∃ e, assert_response_successful resp = .error e) := by
  obtain ⟨meta, result, code, msg⟩ := resp
  constructor
  · cases meta with
    | some m =>
      by_cases hc : m.code.getD 0 = 200 <;>
        by_cases he : containsSub (metaStr m) "error" = true <;>
          simp [assert_response_successful, hc, he, getD_zero_eq_200_iff]
    | none =>
      cases result with
      | some r =>
        by_cases hc : r.code.getD 0 = 200 <;>
          by_cases he : containsSub (resultStr r) "error" = true <;>
            simp [assert_response_successful, hc, he, getD_zero_eq_200_iff]
      | none =>
        by_cases hc : code.getD 0 = 200 <;>
          by_cases he : containsSub (msg.getD "") "error" = true <;>
            simp [assert_response_successful, hc, he, getD_zero_eq_200_iff]
  · intro h1 h2 h3
    cases h1
    cases h2
    cases h3
    exact ⟨_, rfl⟩

/-- Concrete witness for the claim C8 theorem: the empty envelope (none of
the three shapes) is rejected, and an accepted `meta` envelope has code
200. -/
theorem response_envelope_success_check_witness :
    ∃ e, assert_response_successful ⟨none, none, none, none⟩ = .error e :=
  (response_envelope_success_check ⟨none, none, none, none⟩).2 rfl rfl rfl

/-- An event published on the in-process bus (`fire_event`): state-changed
(`EVENT_DEVICE_DATA_CHANGED`) or gateway-status-changed
(`EVENT_GATEWAY_STATUS_CHANGED`). -/
inductive EngineEvent where
  | dataChanged (deviceId : Nat) (attributes : List (String × Val))
  | gatewayStatus (status : Bool)
deriving DecidableEq, Repr

/-- An observable operation of the sync engine, recorded in order: a PUT of
a capability value to the control endpoint, a GET read-back of the same
endpoint, a one-off snapshot poll of a device, or an event published on
the bus. -/
inductive Action where
  | writeValue (key : String) (value : Val)
  | readValue
  | pollOnce (deviceId : Nat)
  | fireEvent (e : EngineEvent)
deriving DecidableEq, Repr

/-- Whether an action is a one-off device poll. -/
def Action.isPollOnce : Action → Bool
  | .pollOnce _ => true
  | _ => false

/-- Whether an action is an event publication. -/
def Action.isFireEvent : Action → Bool
  | .fireEvent _ => true
  | _ => false

/-- The read-back response of the control endpoint (`GET SYNC_DEVICES_API`):
its envelope and its `data` field holding the echoed value. -/
structure ReadBackResp where
  env : Envelope
  data : Option Val
deriving DecidableEq, Repr

/-- The server message used when a command read-back mismatches:
`content.get('meta', {}).get('message', 'Unknown error')` on the read-back
response. -/
def readBackMessage (e : Envelope) : String :=
  match e.meta with
  | some m => m.message.getD "Unknown error"
  | none => "Unknown error"

/-- Embedding of `TreeowClient._send_command`.  The command dict is an
ordered association list (`next(iter(command.keys()))` takes its first
key); `writeEnv` is the envelope answering the PUT and `readBack` the
response answering the verification GET.  Raised `TreeowClientException`s
are modelled as `.error` with the exception message.  The returned action
list records, in order, every endpoint operation and event publication the
path performs. -/
def send_command (command : List (String × Val)) (writeEnv : Envelope)
    (readBack : ReadBackResp) : Except String Unit × List Action :=
  match command with
  | [] => (.ok (), [])
  | (identifier, value) :: _ =>
    match assert_response_successful writeEnv with
    | .error e => (.error e, [.writeValue identifier value])
    | .ok _ =>
      match assert_response_successful readBack.env with
      | .error e => (.error e, [.writeValue identifier value, .readValue])
      | .ok _ =>
        if readBack.data ≠ some value then
          (.error ("Command send failed: " ++ readBackMessage readBack.env),
           [.writeValue identifier value, .readValue])
        else
          (.ok (), [.writeValue identifier value, .readValue])

/-- Claim C2: after a write of `{capability_key: value}`, a read-back of
the same endpoint is performed; a mismatching read-back fails with the
command-rejected error carrying the server's message, a matching read-back
returns successfully, and the command path publishes no event. -/
theorem send_command_verify (identifier : String) (value : Val)
    (rest : List (String × Val)) (writeEnv : Envelope) (readBack : ReadBackResp)
    (hw : assert_response_successful writeEnv = .ok ())
    (hr : assert_response_successful readBack.env = .ok ()) :
    (send_command ((identifier, value) :: rest) writeEnv readBack).2 =
      [.writeValue identifier value, .readValue] ∧
    (readBack.data ≠ some value →
      (send_command ((identifier, value) :: rest) writeEnv readBack).1 =
        .error ("Command send failed: " ++ readBackMessage readBack.env)) ∧
    (readBack.data = some value →
      (send_command ((identifier, value) :: rest) writeEnv readBack).1 = .ok ()) ∧
    ((send_command ((identifier, value) :: rest) writeEnv readBack).2.any
      Action.isFireEvent) = false := by
  refine ⟨?_, ?_, ?_, ?_⟩
  · by_cases hd : readBack.data = some value <;>
      simp [send_command, hw, hr, hd]
  · intro hd
    simp [send_command, hw, hr, hd]
  · intro hd
    simp [send_command, hw, hr, hd]
  · by_cases hd : readBack.data = some value <;>
      simp [send_command, hw, hr, hd, Action.isFireEvent]

/-- Concrete witness for the claim C2 theorem: a write of
`{"switch": true}` whose read-back echoes `true` succeeds, publishing
nothing. -/
theorem send_command_verify_witness :
    (send_command [("switch", .vbool true)]
      ⟨some ⟨some 200, some "ok"⟩, none, none, none⟩
      ⟨⟨some ⟨some 200, some "ok"⟩, none, none, none⟩, some (.vbool true)⟩).1 = .ok () :=
  ((send_command_verify "switch" (.vbool true) []
      ⟨some ⟨some 200, some "ok"⟩, none, none, none⟩
      ⟨⟨some ⟨some 200, some "ok"⟩, none, none, none⟩, some (.vbool true)⟩
      rfl rfl).2.2.1 rfl)

/-- Embedding of the `control_callback` closure registered in
`TreeowClient.listen_devices` for `EVENT_DEVICE_CONTROL` events: it awaits
`_send_command` and swallows every exception, logging it.  Output:
(the callback's own outcome, the actions performed, the error log lines);
the outcome is always `.ok` because the `except` clause catches
everything. -/
def control_callback (command : List (String × Val)) (writeEnv : Envelope)
    (readBack : ReadBackResp) : Except String Unit × List Action × List String :=
  match send_command command writeEnv readBack with
  | (.ok _, acts) => (.ok (), acts, [])
  | (.error e, acts) =>
      (.ok (), acts, ["Failed to handle device control event: " ++ e])

theorem send_command_actions_no_poll (command : List (String × Val))
    (writeEnv : Envelope) (readBack : ReadBackResp) :
    ((send_command command writeEnv readBack).2.any Action.isPollOnce) = false := by
  match command with
  | [] => rfl
  | (identifier, value) :: rest =>
    unfold send_command
    cases assert_response_successful writeEnv with
    | error e => simp [Action.isPollOnce]
    | ok u =>
      cases assert_response_successful readBack.env with
      | error e => simp [Action.isPollOnce]
      | ok u =>
        by_cases hd : readBack.data = some value <;>
          simp [hd, Action.isPollOnce]

/-- Counterexample to claim C3: a fully successful control-requested event
(write accepted, read-back matching) is handled without any one-off poll of
the device — the callback's action trace is exactly the write and the
read-back, so no forced poll occurs. -/
theorem control_consumer_forces_no_poll_counterexample :
    (control_callback [("switch", .vbool true)]
        ⟨some ⟨some 200, some "ok"⟩, none, none, none⟩
        ⟨⟨some ⟨some 200, some "ok"⟩, none, none, none⟩, some (.vbool true)⟩).2.1 =
      [.writeValue "switch" (.vbool true), .readValue] ∧
    ((control_callback [("switch", .vbool true)]
        ⟨some ⟨some 200, some "ok"⟩, none, none, none⟩
        ⟨⟨some ⟨some 200, some "ok"⟩, none, none, none⟩, some (.vbool true)⟩).2.1.any
      Action.isPollOnce) = false := by
  constructor <;> rfl

/-- Claim C3 (amended): on a control-requested event the consumer issues
the write command; it performs no one-off poll of the device (freshness
comes from the regular poll loop), and any failure is logged and not
propagated — the callback always completes normally. -/
theorem control_consumer_handles_event (command : List (String × Val))
    (writeEnv : Envelope) (readBack : ReadBackResp) :
    (control_callback command writeEnv readBack).1 = .ok () ∧
    ((control_callback command writeEnv readBack).2.1.any Action.isPollOnce) = false ∧
    (∀ e, (send_command command writeEnv readBack).1 = .error e →
      (control_callback command writeEnv readBack).2.2 =
        ["Failed to handle device control event: " ++ e]) := by
  have hnp := send_command_actions_no_poll command writeEnv readBack
  rcases hsc : send_command command writeEnv readBack with ⟨r, acts⟩
  rw [hsc] at hnp
  cases r with
  | error e =>
    refine ⟨?_, ?_, ?_⟩
    · simp [control_callback, hsc]
    · simp only [control_callback, hsc]
      exact hnp
    · intro e' he'
      simp only at he'
      cases he'
      simp [control_callback, hsc]
  | ok u =>
    refine ⟨?_, ?_, ?_⟩
    · simp [control_callback, hsc]
    · simp only [control_callback, hsc]
      exact hnp
    · intro e' he'
      simp at he'

/-- Concrete witness for the claim C3 (amended) theorem: a rejected command
(read-back `false` against written `true`) is logged and the callback still
completes normally. -/
theorem control_consumer_handles_event_witness :
    (control_callback [("switch", .vbool true)]
        ⟨some ⟨some 200, some "ok"⟩, none, none, none⟩
        ⟨⟨some ⟨some 200, some "ok"⟩, none, none, none⟩, some (.vbool false)⟩).1 = .ok () ∧
    (control_callback [("switch", .vbool true)]
        ⟨some ⟨some 200, some "ok"⟩, none, none, none⟩
        ⟨⟨some ⟨some 200, some "ok"⟩, none, none, none⟩, some (.vbool false)⟩).2.2 =
      ["Failed to handle device control event: Command send failed: ok"] := by
  refine ⟨(control_consumer_handles_event _ _ _).1, ?_⟩
  have h := (control_consumer_handles_event [("switch", .vbool true)]
      ⟨some ⟨some 200, some "ok"⟩, none, none, none⟩
      ⟨⟨some ⟨some 200, some "ok"⟩, none, none, none⟩, some (.vbool false)⟩).2.2
      "Command send failed: ok" rfl
  simpa using h

/-- One hour, `CACHE_EXPIRATION` in `core/client.py`. -/
def CACHE_EXPIRATION : Int := 3600

/-- The identity a device presents to the schema endpoint: its id (the
cache key) and its reported schema version (part of the
`PV(productId=..., version=...)` profile key used by the remote fetch). -/
structure CacheDevice where
  id : Nat
  version : Nat
deriving DecidableEq, Repr

/-- A raw digital-model entry (capability schema dict).  Only the
`identifier` field is consumed by the message parser; remaining fields are
irrelevant to the claims over this path. -/
structure AttrEntry where
  identifier : Option String
deriving DecidableEq, Repr

/-- The client's in-memory digital-model cache:
`_digital_model_cache` and `_digital_model_cache_time`, both keyed by
device id alone. -/
structure CacheState where
  model : List (Nat × List AttrEntry)
  time : List (Nat × Int)
deriving DecidableEq, Repr

/-- The remote fetch (`TreeowClient.get_digital_model`): what the schema
endpoint currently returns for a device; it depends on the whole device
identity, version included. -/
def fetchAndStore (remote : CacheDevice → List AttrEntry) (now : Int)
    (device : CacheDevice) (st : CacheState) : List AttrEntry × CacheState × Nat :=
  let attributes := remote device
  (attributes,
   ⟨dinsert st.model device.id attributes, dinsert st.time device.id now⟩,
   1)

/-- Embedding of `TreeowClient.get_digital_model_from_cache`: consult the
in-memory cache keyed by `device.id`; a hit younger than
`CACHE_EXPIRATION` is returned as-is, an expired hit is deleted; on miss or
expiry the remote model is fetched and stored with the current time.  The
third component counts remote fetches (0 or 1). -/
def get_digital_model_from_cache (remote : CacheDevice → List AttrEntry)
    (now : Int) (device : CacheDevice) (st : CacheState) :
    List AttrEntry × CacheState × Nat :=
  match dget st.model device.id with
  | some cached =>
      let cacheTime := (dget st.time device.id).getD 0
      if now - cacheTime < CACHE_EXPIRATION then
        (cached, st, 0)
      else
        fetchAndStore remote now device
          ⟨ddel st.model device.id, ddel st.time device.id⟩
  | none => fetchAndStore remote now device st

/-- Counterexample to claim C1: device 7 changes its reported schema
version from 1 to 2 between two `get()` calls made 10 seconds apart.  The
remote endpoint would return a new model for version 2, but the second
call performs zero refetches (the claim demands exactly one) and returns
the stale version-1 model: the cache is keyed by device id alone and
consults only the TTL. -/
theorem cache_version_change_counterexample :
    (let remote : CacheDevice → List AttrEntry :=
        fun d => if d.version = 1 then [⟨some "old_attr"⟩] else [⟨some "new_attr"⟩]
     let first := get_digital_model_from_cache remote 0 ⟨7, 1⟩ ⟨[], []⟩
     let second := get_digital_model_from_cache remote 10 ⟨7, 2⟩ first.2.1
     first.2.2 = 1 ∧ second.2.2 = 0 ∧ second.1 = [⟨some "old_attr"⟩] ∧
       remote ⟨7, 2⟩ = [⟨some "new_attr"⟩]) :=
  ⟨rfl, rfl, rfl, rfl⟩

theorem gdmc_hit (remote : CacheDevice → List AttrEntry) (now : Int)
    (d : CacheDevice) (st : CacheState) (cached : List AttrEntry)
    (hc : dget st.model d.id = some cached)
    (hv : now - (dget st.time d.id).getD 0 < CACHE_EXPIRATION) :
    get_digital_model_from_cache remote now d st = (cached, st, 0) := by
  unfold get_digital_model_from_cache
  rw [hc]
  simp [hv]

theorem gdmc_expired (remote : CacheDevice → List AttrEntry) (now : Int)
    (d : CacheDevice) (st : CacheState) (cached : List AttrEntry)
    (hc : dget st.model d.id = some cached)
    (hv : ¬ now - (dget st.time d.id).getD 0 < CACHE_EXPIRATION) :
    get_digital_model_from_cache remote now d st =
      fetchAndStore remote now d ⟨ddel st.model d.id, ddel st.time d.id⟩ := by
  unfold get_digital_model_from_cache
  rw [hc]
  simp [hv]

theorem gdmc_miss (remote : CacheDevice → List AttrEntry) (now : Int)
    (d : CacheDevice) (st : CacheState)
    (hc : dget st.model d.id = none) :
    get_digital_model_from_cache remote now d st = fetchAndStore remote now d st := by
  unfold get_digital_model_from_cache
  rw [hc]

theorem gdmc_fetches_le_one (remote : CacheDevice → List AttrEntry) (now : Int)
    (d : CacheDevice) (st : CacheState) :
    (get_digital_model_from_cache remote now d st).2.2 ≤ 1 := by
  rcases hcache : dget st.model d.id with _ | cached
  · rw [gdmc_miss remote now d st hcache]
    exact le_refl 1
  · by_cases hv : now - (dget st.time d.id).getD 0 < CACHE_EXPIRATION
    · rw [gdmc_hit remote now d st cached hcache hv]
      exact Nat.zero_le 1
    · rw [gdmc_expired remote now d st cached hcache hv]
      exact le_refl 1

/-- Claim C1 (amended): two consecutive `get()` calls for the same device
id within the 1-hour TTL issue at most one remote fetch in total; but a
schema-version change does not force a refetch — whenever the first call
fetched, a second call within the TTL (under any reported version with the
same id) performs no remote fetch and returns the list fetched under the
first call's version. -/
theorem cache_ttl_bounds_fetches (remote : CacheDevice → List AttrEntry)
    (d d2 : CacheDevice) (now1 now2 : Int) (st : CacheState)
    (hid : d2.id = d.id) (httl : now2 - now1 < CACHE_EXPIRATION) :
    (get_digital_model_from_cache remote now1 d st).2.2 +
      (get_digital_model_from_cache remote now2 d2
        (get_digital_model_from_cache remote now1 d st).2.1).2.2 ≤ 1 ∧
    ((get_digital_model_from_cache remote now1 d st).2.2 = 1 →
      (get_digital_model_from_cache remote now2 d2
        (get_digital_model_from_cache remote now1 d st).2.1).2.2 = 0 ∧
      (get_digital_model_from_cache remote now2 d2
        (get_digital_model_from_cache remote now1 d st).2.1).1 = remote d) := by
  have hfetched : ∀ st' : CacheState,
      get_digital_model_from_cache remote now2 d2 (fetchAndStore remote now1 d st').2.1 =
        (remote d, (fetchAndStore remote now1 d st').2.1, 0) := by
    intro st'
    have hm : dget (fetchAndStore remote now1 d st').2.1.model d2.id = some (remote d) := by
      show dget (dinsert st'.model d.id (remote d)) d2.id = some (remote d)
      rw [hid]
      exact dget_dinsert_self _ _ _
    have ht : dget (fetchAndStore remote now1 d st').2.1.time d2.id = some now1 := by
      show dget (dinsert st'.time d.id now1) d2.id = some now1
      rw [hid]
      exact dget_dinsert_self _ _ _
    rw [gdmc_hit remote now2 d2 _ (remote d) hm (by rw [ht]; exact httl)]
  rcases hcache : dget st.model d.id with _ | cached
  · rw [gdmc_miss remote now1 d st hcache, hfetched st]
    exact ⟨by simp [fetchAndStore], fun _ => ⟨rfl, rfl⟩⟩
  · by_cases hvalid : now1 - (dget st.time d.id).getD 0 < CACHE_EXPIRATION
    · rw [gdmc_hit remote now1 d st cached hcache hvalid]
      refine ⟨?_, fun hcontra => absurd hcontra (by simp)⟩
      simpa using gdmc_fetches_le_one remote now2 d2 st
    · rw [gdmc_expired remote now1 d st cached hcache hvalid,
        hfetched ⟨ddel st.model d.id, ddel st.time d.id⟩]
      exact ⟨by simp [fetchAndStore], fun _ => ⟨rfl, rfl⟩⟩

/-- Concrete witness for the claim C1 (amended) theorem: a cold-cache first
call at time 0 followed by a call at time 10 for the same device id under
a changed version fetches exactly once in total and returns the stale
list. -/
theorem cache_ttl_bounds_fetches_witness :
    (get_digital_model_from_cache (fun d => if d.version = 1 then [⟨some "a"⟩] else [⟨some "b"⟩])
        0 ⟨7, 1⟩ ⟨[], []⟩).2.2 +
      (get_digital_model_from_cache (fun d => if d.version = 1 then [⟨some "a"⟩] else [⟨some "b"⟩])
        10 ⟨7, 2⟩
        (get_digital_model_from_cache (fun d => if d.version = 1 then [⟨some "a"⟩] else [⟨some "b"⟩])
          0 ⟨7, 1⟩ ⟨[], []⟩).2.1).2.2 ≤ 1 :=
  (cache_ttl_bounds_fetches (fun d => if d.version = 1 then [⟨some "a"⟩] else [⟨some "b"⟩])
    ⟨7, 1⟩ ⟨7, 2⟩ 0 10 ⟨[], []⟩ rfl (by decide)).1

/-- One entry of a device message's `props` list; `value` is the parsed
form of the JSON-encoded string (`json.loads(props[0]['value'])`): an
object mapping a category name to an object of capability values. -/
structure PropEntry where
  value : List (String × List (String × Val))
deriving DecidableEq, Repr

/-- A raw device message as handled by `TreeowClient._parse_message` /
`_poll_device`: the `data` object of the snapshot response. -/
structure DeviceMsg where
  id : Nat
  category : String
  props : List PropEntry
deriving DecidableEq, Repr

/-- The device's known capability set as consulted by the parser: the
truthy `identifier` fields of the cached digital model (the source guards
with `if identifier and identifier in data`). -/
def capabilityKeys (attrs : List AttrEntry) : List String :=
  (attrs.filterMap (fun a => a.identifier)).filter (fun k => k ≠ "")

/-- One iteration of `_parse_message`'s loop:
`if identifier and identifier in data: values[identifier] = data[identifier]`. -/
def valuesStep (data : List (String × Val)) (acc : List (String × Val))
    (a : AttrEntry) : List (String × Val) :=
  match a.identifier with
  | some k =>
      if k ≠ "" then
        match dget data k with
        | some v => dinsert acc k v
        | none => acc
      else acc
  | none => acc

/-- The `values` dict built by `_parse_message` from the raw payload and
the cached digital model. -/
def buildValues (attrs : List AttrEntry) (data : List (String × Val)) :
    List (String × Val) :=
  attrs.foldl (valuesStep data) []

/-- Embedding of `TreeowClient._parse_message`: with empty `props` nothing
is published; otherwise the payload object for the message's category is
extracted (`{}` when absent), filtered against the cached digital model,
and one state-changed event is fired carrying the message's id and the
filtered values. -/
def parse_message (attrs : List AttrEntry) (msg : DeviceMsg) : List Action :=
  match msg.props with
  | [] => []
  | p :: _ =>
      let data := (dget p.value msg.category).getD []
      [.fireEvent (.dataChanged msg.id (buildValues attrs data))]

theorem capabilityKeys_cons (a : AttrEntry) (rest : List AttrEntry) :
    capabilityKeys (a :: rest) =
      match a.identifier with
      | some k => if k ≠ "" then k :: capabilityKeys rest else capabilityKeys rest
      | none => capabilityKeys rest := by
  cases ha : a.identifier with
  | none => simp [capabilityKeys, List.filterMap_cons, ha]
  | some k =>
    by_cases hk : k = "" <;>
      simp [capabilityKeys, List.filterMap_cons, ha, hk]

theorem dget_foldl_valuesStep (data : List (String × Val)) (attrs : List AttrEntry)
    (acc : List (String × Val)) (k : String) :
    dget (attrs.foldl (valuesStep data) acc) k =
      if k ∈ capabilityKeys attrs ∧ (dget data k).isSome then dget data k
      else dget acc k := by
  induction attrs generalizing acc with
  | nil => simp [capabilityKeys]
  | cons a rest ih =>
    obtain ⟨ident⟩ := a
    rw [List.foldl_cons, ih]
    by_cases hrest : k ∈ capabilityKeys rest ∧ (dget data k).isSome
    · rw [if_pos hrest, if_pos]
      refine ⟨?_, hrest.2⟩
      rw [capabilityKeys_cons]
      cases ident with
      | none => exact hrest.1
      | some k' =>
        by_cases hk' : k' = "" <;> simp [hk', hrest.1]
    · rw [if_neg hrest]
      cases ident with
      | none =>
        show dget acc k = _
        rw [if_neg]
        rw [capabilityKeys_cons]
        exact hrest
      | some k' =>
        by_cases hk' : k' = ""
        · subst hk'
          show dget acc k = _
          rw [if_neg]
          rw [capabilityKeys_cons]
          simpa using hrest
        · have hstep : valuesStep data acc ⟨some k'⟩ =
              match dget data k' with
              | some v => dinsert acc k' v
              | none => acc := by
            simp [valuesStep, hk']
          by_cases heq : k' = k
          · subst heq
            rw [hstep]
            cases hd : dget data k' with
            | some v =>
              simp only [hd]
              rw [dget_dinsert_self, if_pos]
              constructor
              · rw [capabilityKeys_cons]
                simp [hk']
              · rfl
            | none =>
              simp only [hd]
              rw [if_neg]
              intro hcond
              simpa using hcond.2
          · rw [hstep]
            have hacc : dget
                (match dget data k' with
                 | some v => dinsert acc k' v
                 | none => acc) k = dget acc k := by
              cases dget data k' with
              | some v => exact dget_dinsert_ne _ _ _ _ (fun h => heq h.symm)
              | none => rfl
            rw [hacc, if_neg]
            rw [capabilityKeys_cons]
            simp only [ne_eq, hk', not_false_eq_true, if_true]
            intro hcond
            rcases List.mem_cons.mp hcond.1 with h | h
            · exact heq h.symm
            · exact hrest ⟨h, hcond.2⟩

/-- Claim C9: the state-changed event published for a parsed poll-cycle
message carries exactly the key-value pairs whose keys are present both
in the raw device payload (the category object of the first prop) and in
the device's known capability set, and no other fields. -/
theorem parse_message_event_fields (attrs : List AttrEntry) (msg : DeviceMsg)
    (p : PropEntry) (rest : List PropEntry) (hp : msg.props = p :: rest) :
    parse_message attrs msg =
      [.fireEvent (.dataChanged msg.id
        (buildValues attrs ((dget p.value msg.category).getD [])))] ∧
    (∀ k v, dget (buildValues attrs ((dget p.value msg.category).getD [])) k = some v ↔
      (k ∈ capabilityKeys attrs ∧
        dget ((dget p.value msg.category).getD []) k = some v)) := by
  constructor
  · rw [parse_message, hp]
  · intro k v
    rw [buildValues, dget_foldl_valuesStep]
    by_cases hc : k ∈ capabilityKeys attrs ∧
        (dget ((dget p.value msg.category).getD []) k).isSome
    · rw [if_pos hc]
      constructor
      · intro h
        exact ⟨hc.1, h⟩
      · intro h
        exact h.2
    · rw [if_neg hc]
      constructor
      · intro h
        cases h
      · intro h
        exact absurd ⟨h.1, by rw [h.2]; rfl⟩ hc

/-- Concrete witness for the claim C9 theorem: a message for device 3 of
category `"cat"` whose payload holds `pm25` and an unknown key, against a
model knowing `pm25` and `switch` (`switch` absent from the payload): the
published event carries exactly `pm25`. -/
theorem parse_message_event_fields_witness :
    parse_message [⟨some "pm25"⟩, ⟨some "switch"⟩]
        ⟨3, "cat", [⟨[("cat", [("pm25", Val.vint 12), ("junk", Val.vint 9)])]⟩]⟩ =
      [.fireEvent (.dataChanged 3 [("pm25", Val.vint 12)])] := by
  have h := (parse_message_event_fields [⟨some "pm25"⟩, ⟨some "switch"⟩]
      ⟨3, "cat", [⟨[("cat", [("pm25", Val.vint 12), ("junk", Val.vint 9)])]⟩]⟩
      ⟨[("cat", [("pm25", Val.vint 12), ("junk", Val.vint 9)])]⟩ [] rfl).1
  rw [h]
  rfl

/-- The content answering a device snapshot POST (`DESCRIBE_DEVICES_API`):
its envelope and its `data` field holding the device message (absent when
falsy). -/
structure PollContent where
  env : Envelope
  data : Option DeviceMsg
deriving DecidableEq, Repr

/-- Embedding of `TreeowClient._poll_device` for one device: the network
fetch may fail (`.error`, a raised exception), the envelope is checked,
and a truthy `data` is parsed via `_parse_message`.  The enclosing
`try/except` logs any exception and returns normally, so a failing device
contributes no actions and raises nothing.  `attrsOf` stands for the
digital-model list the cache serves for the device
(`get_digital_model_from_cache`, modelled statefully elsewhere). -/
def poll_device (fetch : Nat → Except String PollContent)
    (attrsOf : Nat → List AttrEntry) (deviceId : Nat) : List Action :=
  match fetch deviceId with
  | .error _ => []
  | .ok content =>
    match assert_response_successful content.env with
    | .error _ => []
    | .ok _ =>
      match content.data with
      | some msg => parse_message (attrsOf deviceId) msg
      | none => []

/-- One iteration of the poll loop body in `TreeowClient.listen_devices`:
`asyncio.gather` over `_poll_device` for every target device with
`return_exceptions=True`; the per-device action lists are concatenated in
device order. -/
def poll_cycle (fetch : Nat → Except String PollContent)
    (attrsOf : Nat → List AttrEntry) (deviceIds : List Nat) : List Action :=
  (deviceIds.map (poll_device fetch attrsOf)).flatten

/-- Claim C6: within one poll cycle, a device whose fetch raises
contributes nothing but is isolated — the cycle's actions are exactly the
concatenation of the sibling devices' actions, and every sibling's
published event is still present in the cycle. -/
theorem poll_cycle_isolates_failures (fetch : Nat → Except String PollContent)
    (attrsOf : Nat → List AttrEntry) (xs ys : List Nat) (dA : Nat) (e : String)
    (hfail : fetch dA = .error e) :
    poll_cycle fetch attrsOf (xs ++ dA :: ys) =
      poll_cycle fetch attrsOf xs ++ poll_cycle fetch attrsOf ys ∧
    (∀ d ∈ xs ++ ys, ∀ a ∈ poll_device fetch attrsOf d,
      a ∈ poll_cycle fetch attrsOf (xs ++ dA :: ys)) := by
  have hA : poll_device fetch attrsOf dA = [] := by
    rw [poll_device, hfail]
  constructor
  · rw [poll_cycle, poll_cycle, poll_cycle]
    rw [List.map_append, List.map_cons, hA, List.flatten_append, List.flatten_cons]
    simp
  · intro d hd a ha
    rw [poll_cycle]
    rw [List.mem_flatten]
    refine ⟨poll_device fetch attrsOf d, ?_, ha⟩
    rw [List.mem_map]
    refine ⟨d, ?_, rfl⟩
    rcases List.mem_append.mp hd with h | h
    · exact List.mem_append.mpr (Or.inl h)
    · exact List.mem_append.mpr (Or.inr (List.mem_cons_of_mem _ h))

/-- Concrete witness for the claim C6 theorem: device 1's fetch raises,
device 2's state-changed event is still published in the same cycle. -/
theorem poll_cycle_isolates_failures_witness :
    poll_cycle
        (fun i => if i = 1 then .error "timeout"
          else .ok ⟨⟨some ⟨some 200, none⟩, none, none, none⟩,
            some ⟨2, "cat", [⟨[("cat", [("pm25", Val.vint 5)])]⟩]⟩⟩)
        (fun _ => [⟨some "pm25"⟩]) [1, 2] =
      [.fireEvent (.dataChanged 2 [("pm25", Val.vint 5)])] := by
  have h := (poll_cycle_isolates_failures
      (fun i => if i = 1 then .error "timeout"
        else .ok ⟨⟨some ⟨some 200, none⟩, none, none, none⟩,
          some ⟨2, "cat", [⟨[("cat", [("pm25", Val.vint 5)])]⟩]⟩⟩)
      (fun _ => [⟨some "pm25"⟩]) [] [2] 1 "timeout" rfl).1
  rw [show ([] ++ 1 :: [2] : List Nat) = [1, 2] from rfl] at h
  rw [h]
  rfl

/-- `TOKEN_REFRESH_THRESHOLD` in `__init__.py`: one day in seconds. -/
def TOKEN_REFRESH_THRESHOLD : Int := 86400

/-- A token pair with its expiry, as returned by `login`/`refresh_token`
and as stored in `AccountConfig`. -/
structure TokenInfo where
  accessToken : String
  refreshTok : String
  expiresAt : Int
deriving DecidableEq, Repr

/-- The observable outcome of one `_try_update_token` run: the returned
bool (`True` = credentials changed, reported Refreshed; `False` =
Unchanged), the stored credentials afterwards, the number of `login` and
`refresh_token` network calls, and each credential set passed to
`AccountConfig.save()` in order (write-through persistence). -/
structure TokenUpdateOutcome where
  changed : Bool
  stored : TokenInfo
  loginCalls : Nat
  refreshCalls : Nat
  persisted : List TokenInfo
deriving DecidableEq, Repr

/-- Embedding of `_try_update_token` (`__init__.py`): `verifyOk` is
whether `client.verify_token()` succeeds (a failure raises
`TreeowClientException`, caught by the inner `try`); `loginResult` and
`refreshResult` are what the respective endpoints would return; `now` is
`int(time.time())`; `cfg` is the stored credential set. -/
def try_update_token (verifyOk : Bool) (loginResult refreshResult : TokenInfo)
    (now : Int) (cfg : TokenInfo) : TokenUpdateOutcome :=
  if !verifyOk then
    ⟨true, loginResult, 1, 0, [loginResult]⟩
  else
    let timeUntilExpiry := cfg.expiresAt - now
    if timeUntilExpiry > TOKEN_REFRESH_THRESHOLD then
      ⟨false, cfg, 0, 0, []⟩
    else
      ⟨true, refreshResult, 0, 1, [refreshResult]⟩

/-- Claim C4: with a valid token and more than one day remaining,
`_try_update_token` reports Unchanged and issues no refresh call; with a
valid token and 12 hours remaining it issues exactly one refresh call and
persists the new pair and expiry write-through; with a failing
verification it performs a full login and persists the resulting pair. -/
theorem token_ensure_fresh_policy (loginResult refreshResult : TokenInfo)
    (now : Int) (cfg : TokenInfo) :
    (cfg.expiresAt - now > 86400 →
      try_update_token true loginResult refreshResult now cfg =
        ⟨false, cfg, 0, 0, []⟩) ∧
    (cfg.expiresAt - now = 43200 →
      try_update_token true loginResult refreshResult now cfg =
        ⟨true, refreshResult, 0, 1, [refreshResult]⟩) ∧
    (try_update_token false loginResult refreshResult now cfg =
        ⟨true, loginResult, 1, 0, [loginResult]⟩) := by
  refine ⟨?_, ?_, rfl⟩
  · intro h
    simp only [try_update_token, TOKEN_REFRESH_THRESHOLD, Bool.not_true,
      Bool.false_eq_true, if_false]
    rw [if_pos h]
  · intro h
    simp only [try_update_token, TOKEN_REFRESH_THRESHOLD, Bool.not_true,
      Bool.false_eq_true, if_false]
    rw [if_neg]
    rw [h]
    decide

/-- Concrete witness for the claim C4 theorem: a token with 2 days
(172800 s) remaining is left unchanged with zero refresh calls; one with
12 hours (43200 s) remaining is refreshed exactly once and persisted. -/
theorem token_ensure_fresh_policy_witness :
    try_update_token true ⟨"la", "lr", 999⟩ ⟨"ra", "rr", 500000⟩ 0 ⟨"a", "r", 172800⟩ =
      ⟨false, ⟨"a", "r", 172800⟩, 0, 0, []⟩ ∧
    try_update_token true ⟨"la", "lr", 999⟩ ⟨"ra", "rr", 500000⟩ 0 ⟨"a", "r", 43200⟩ =
      ⟨true, ⟨"ra", "rr", 500000⟩, 0, 1, [⟨"ra", "rr", 500000⟩]⟩ :=
  ⟨(token_ensure_fresh_policy ⟨"la", "lr", 999⟩ ⟨"ra", "rr", 500000⟩ 0
      ⟨"a", "r", 172800⟩).1 (by decide),
   (token_ensure_fresh_policy ⟨"la", "lr", 999⟩ ⟨"ra", "rr", 500000⟩ 0
      ⟨"a", "r", 43200⟩).2.1 (by decide)⟩

/-- A Python value as seen by `try_read_as_bool`: a real bool, a string,
an int that is not a bool, or a float. -/
inductive PyVal where
  | pbool (b : Bool)
  | pstr (s : String)
  | pint (n : Int)
  | pfloat (q : ℚ)
deriving DecidableEq, Repr

/-- Embedding of Python's `str.lower()` (ASCII case folding). -/
def pyLower (s : String) : String :=
  String.mk (s.data.map Char.toLower)

/-- Embedding of `helpers.try_read_as_bool`: identity on real bools; the
literal strings `'true'`/`'false'` map to their bool; any other string
compares its lowercase form against `'true'`; everything else raises
`ValueError` (modelled as `.error`).  An int (other than a Python bool)
never equals the strings `'true'`/`'false'`, so it falls through to the
raise. -/
def try_read_as_bool : PyVal → Except String Bool
  | .pbool b => .ok b
  | .pstr s =>
      if s = "true" then .ok true
      else if s = "false" then .ok false
      else .ok (pyLower s == "true")
  | .pint n => .error ("[" ++ toString n ++ "]cannot be read as bool")
  | .pfloat q => .error ("[" ++ toString q ++ "]cannot be read as bool")

/-- The state of a switch entity relevant to `TreeowSwitch._update_value`:
`_attr_is_on` and `_attr_available`. -/
structure SwitchState where
  is_on : Bool
  available : Bool
deriving DecidableEq, Repr

/-- Embedding of `TreeowSwitch._update_value`: a missing snapshot value
turns the switch off (availability untouched); a readable value sets
`is_on` and restores availability; a `ValueError` leaves `is_on` untouched
and marks the entity unavailable. -/
def switch_update_value (value : Option PyVal) (st : SwitchState) : SwitchState :=
  match value with
  | none => ⟨false, st.available⟩
  | some v =>
    match try_read_as_bool v with
    | .ok b => ⟨b, if !st.available then true else st.available⟩
    | .error _ => ⟨st.is_on, false⟩

/-- Claim C10: `try_read_as_bool` returns the bool itself for real bools,
returns for every string whether its lowercase form equals `'true'`, and
raises `ValueError` for every non-bool non-string value (ints such as 0
and 1 included); consequently a switch whose snapshot value is such a
value is marked unavailable with its on/off state untouched. -/
theorem bool_reader_and_switch_availability :
    (∀ b, try_read_as_bool (.pbool b) = .ok b) ∧
    (∀ s, try_read_as_bool (.pstr s) = .ok (pyLower s == "true")) ∧
    (∀ n, ∃ e, try_read_as_bool (.pint n) = .error e) ∧
    (∀ q, ∃ e, try_read_as_bool (.pfloat q) = .error e) ∧
    (∀ st n, switch_update_value (some (.pint n)) st = ⟨st.is_on, false⟩) := by
  refine ⟨fun b => rfl, ?_, fun n => ⟨_, rfl⟩, fun q => ⟨_, rfl⟩, fun st n => rfl⟩
  intro s
  by_cases h1 : s = "true"
  · subst h1
    rfl
  · by_cases h2 : s = "false"
    · subst h2
      rfl
    · simp [try_read_as_bool, h1, h2]

/-- Sensor device classes assigned by `V1SpecAttributeParser`
(`SENSOR_KEYWORDS` / `IDENTIFIER_MAPPINGS` in `core/attribute.py`). -/
inductive SensorDeviceClassM where
  | temperature
  | humidity
  | duration
  | battery
  | aqi
  | pm25
deriving DecidableEq, Repr

/-- Sensor state classes assigned by the parser. -/
inductive SensorStateClassM where
  | total
  | measurement
deriving DecidableEq, Repr

/-- `SENSOR_KEYWORDS` from `core/attribute.py`, in source (insertion)
order: keyword → (state class, device class, unit). -/
def SENSOR_KEYWORDS :
    List (String × (Option SensorStateClassM × Option SensorDeviceClassM × Option String)) :=
  [("累计", (some .total, none, none)),
   ("天数", (some .measurement, some .duration, some "d")),
   ("小时", (some .measurement, some .duration, some "h")),
   ("温度", (none, some .temperature, some "°C")),
   ("湿度", (none, some .humidity, some "%")),
   ("寿命", (none, some .battery, some "%")),
   ("甲醛", (some .measurement, some .aqi, none)),
   ("水位", (some .measurement, none, some "%")),
   ("水量", (some .measurement, none, some "%")),
   ("液位", (some .measurement, none, some "%"))]

/-- `IDENTIFIER_MAPPINGS` from `core/attribute.py`: identifier-based rules
checked before the keyword rules. -/
def IDENTIFIER_MAPPINGS :
    List (String × (Option SensorStateClassM × Option SensorDeviceClassM × Option String)) :=
  [("pm25", (some .measurement, some .pm25, some "µg/m³")),
   ("aal", (some .measurement, some .aqi, none))]

/-- Embedding of
`V1SpecAttributeParser._guess_state_class_device_class_and_unit`:
identifier mappings first, then the first display-name keyword match in
table order, else nothing. -/
def guess_state_device_class_and_unit (identifier displayName : String) :
    Option SensorStateClassM × Option SensorDeviceClassM × Option String :=
  match dget IDENTIFIER_MAPPINGS identifier with
  | some t => t
  | none =>
    match SENSOR_KEYWORDS.find? (fun kw => containsSub displayName kw.1) with
    | some kw => kw.2
    | none => (none, none, none)

/-- The sensor-relevant result of `V1SpecAttributeParser._parse_as_sensor`
plus what `TreeowSensor.__init__` caches from it: options (classes, unit)
and the comparison table (`ext.get('value_comparison_table', {})` — the
parser always leaves `ext` empty for sensors). -/
structure SensorAttr where
  key : String
  state_class : Option SensorStateClassM
  device_class : Option SensorDeviceClassM
  unit : Option String
  comparison_table : List (PyVal × PyVal)
deriving DecidableEq, Repr

/-- Embedding of `_parse_as_sensor`: classes are guessed only for
integer-typed schemas (`equals_ignore_case(schema.type, 'integer')`); the
extension dict is always empty, so the entity's comparison table is
empty. -/
def parse_as_sensor (identifier displayName schemaType : String) : SensorAttr :=
  if pyLower schemaType = "integer" then
    let g := guess_state_device_class_and_unit identifier displayName
    ⟨identifier, g.1, g.2.1, g.2.2, []⟩
  else
    ⟨identifier, none, none, none, []⟩

/-- `TreeowSensor.__init__`'s cached
`device_class in (TEMPERATURE, HUMIDITY)` test. -/
def sensor_is_temp_or_humidity (a : SensorAttr) : Bool :=
  a.device_class == some .temperature || a.device_class == some .humidity

/-- Embedding of `TreeowSensor._update_value`: a missing value exposes
`None`; otherwise the value is translated through the comparison table
when non-empty and containing it; then, only for temperature/humidity
sensors, a numeric value with absolute magnitude over 100 is divided
by 10 (Python true division, yielding a float). -/
def sensor_update_value (table : List (PyVal × PyVal)) (isTempOrHumidity : Bool)
    (value : Option PyVal) : Option PyVal :=
  match value with
  | none => none
  | some v =>
    let processed :=
      if (!table.isEmpty) && (dget table v).isSome then (dget table v).getD v
      else v
    let adjusted :=
      if isTempOrHumidity then
        match processed with
        | .pint n => if 100 < |n| then .pfloat ((n : ℚ) / 10) else processed
        | .pfloat q => if 100 < |q| then .pfloat (q / 10) else processed
        | _ => processed
      else processed
    some adjusted

/-- Counterexample to claim C7: the formaldehyde-concentration sensor
(display name containing `甲醛`, AQI device class, empty comparison table)
exposes the raw value 35 unchanged — there is no division by 1000 anywhere
in the sensor path, so raw 35 does not become 0.035. -/
theorem formaldehyde_not_divided_counterexample :
    (parse_as_sensor "hcho" "甲醛浓度" "integer").device_class = some .aqi ∧
    sensor_is_temp_or_humidity (parse_as_sensor "hcho" "甲醛浓度" "integer") = false ∧
    sensor_update_value (parse_as_sensor "hcho" "甲醛浓度" "integer").comparison_table
      (sensor_is_temp_or_humidity (parse_as_sensor "hcho" "甲醛浓度" "integer"))
      (some (.pint 35)) = some (.pint 35) ∧
    some (PyVal.pint 35) ≠ some (PyVal.pfloat (35 / 1000)) := by
  refine ⟨by decide, by decide, rfl, by decide⟩

/-- Claim C7 (amended): formaldehyde-concentration sensor values are
exposed unchanged for every raw value — no division by 1000 is applied
(the only consumer-side normalization divides temperature/humidity
magnitudes over 100 by 10, and the formaldehyde keyword maps to the AQI
device class). -/
theorem formaldehyde_value_exposed_unchanged (v : PyVal) :
    sensor_update_value (parse_as_sensor "hcho" "甲醛浓度" "integer").comparison_table
      (sensor_is_temp_or_humidity (parse_as_sensor "hcho" "甲醛浓度" "integer"))
      (some v) = some v ∧
    (parse_as_sensor "hcho" "甲醛浓度" "integer").device_class = some .aqi := by
  exact ⟨rfl, by decide⟩

/-- The effective enum code list used by
`V1SpecAttributeParser._parse_as_select`: the `fan_speed_enum` quirk
prepends the synthetic code 255 (`enum = [255] + enum`). -/
def effectiveEnum (identifier : String) (enum : List Int) : List Int :=
  if identifier = "fan_speed_enum" then 255 :: enum else enum

/-- The effective enum label list: the `fan_speed_enum` quirk prepends the
synthetic label `'0gear'` (`enum_desc = ['0gear'] + enum_desc`). -/
def effectiveEnumDesc (identifier : String) (enumDesc : List String) : List String :=
  if identifier = "fan_speed_enum" then "0gear" :: enumDesc else enumDesc

/-- The flattened sequence of dict assignments performed by
`_parse_as_select`'s loop: for each zipped `(val, desc)` pair, first
`table[val] = desc`, then `table[desc] = val`. -/
def tablePairs : List (Int × String) → List (Val × Val)
  | [] => []
  | (c, l) :: rest => (.vint c, .vstr l) :: (.vstr l, .vint c) :: tablePairs rest

/-- The bidirectional `value_comparison_table` built by
`_parse_as_select` from the schema `enum`/`enumDesc` lists. -/
def value_comparison_table (identifier : String) (enum : List Int)
    (enumDesc : List String) : List (Val × Val) :=
  insertEntries []
    (tablePairs ((effectiveEnum identifier enum).zip (effectiveEnumDesc identifier enumDesc)))

/-- The reverse lookup table built by `TreeowSelect.__init__`:
`for key, value in table.items(): reverse[value] = key`. -/
def reverse_comparison_table (t : List (Val × Val)) : List (Val × Val) :=
  insertEntries [] (t.map (fun p => (p.2, p.1)))

/-- Embedding of `TreeowSelect._update_value` on a present snapshot value:
a value in the table maps to its entry, anything else falls back to
`str(value)`. -/
def select_decode (t : List (Val × Val)) (v : Val) : Val :=
  match dget t v with
  | some o => o
  | none => .vstr (pyStr v)

/-- Embedding of `TreeowSelect.select_option`: an option in the reverse
table maps to its command value, anything else is sent as-is. -/
def select_encode (rt : List (Val × Val)) (opt : Val) : Val :=
  match dget rt opt with
  | some c => c
  | none => opt

theorem tablePairs_fst_mem_vint (ps : List (Int × String)) (c : Int) :
    (Val.vint c) ∈ (tablePairs ps).map Prod.fst ↔ c ∈ ps.map Prod.fst := by
  induction ps with
  | nil => simp [tablePairs]
  | cons p rest ih =>
    obtain ⟨a, b⟩ := p
    simp [tablePairs, ih]

theorem tablePairs_fst_mem_vstr (ps : List (Int × String)) (l : String) :
    (Val.vstr l) ∈ (tablePairs ps).map Prod.fst ↔ l ∈ ps.map Prod.snd := by
  induction ps with
  | nil => simp [tablePairs]
  | cons p rest ih =>
    obtain ⟨a, b⟩ := p
    simp [tablePairs, ih]

theorem tablePairs_snd_mem_vint (ps : List (Int × String)) (c : Int) :
    (Val.vint c) ∈ (tablePairs ps).map Prod.snd ↔ c ∈ ps.map Prod.fst := by
  induction ps with
  | nil => simp [tablePairs]
  | cons p rest ih =>
    obtain ⟨a, b⟩ := p
    simp [tablePairs, ih]

theorem tablePairs_snd_mem_vstr (ps : List (Int × String)) (l : String) :
    (Val.vstr l) ∈ (tablePairs ps).map Prod.snd ↔ l ∈ ps.map Prod.snd := by
  induction ps with
  | nil => simp [tablePairs]
  | cons p rest ih =>
    obtain ⟨a, b⟩ := p
    simp [tablePairs, ih]

theorem tablePairs_fst_nodup (ps : List (Int × String))
    (h1 : (ps.map Prod.fst).Nodup) (h2 : (ps.map Prod.snd).Nodup) :
    ((tablePairs ps).map Prod.fst).Nodup := by
  induction ps with
  | nil => simp [tablePairs]
  | cons p rest ih =>
    obtain ⟨a, b⟩ := p
    simp only [List.map_cons, List.nodup_cons] at h1 h2
    simp only [tablePairs, List.map_cons, List.nodup_cons]
    refine ⟨?_, ?_, ih h1.2 h2.2⟩
    · intro hmem
      rcases List.mem_cons.mp hmem with h | h
      · cases h
      · exact h1.1 ((tablePairs_fst_mem_vint rest a).mp h)
    · intro hmem
      exact h2.1 ((tablePairs_fst_mem_vstr rest b).mp hmem)

theorem tablePairs_snd_nodup (ps : List (Int × String))
    (h1 : (ps.map Prod.fst).Nodup) (h2 : (ps.map Prod.snd).Nodup) :
    ((tablePairs ps).map Prod.snd).Nodup := by
  induction ps with
  | nil => simp [tablePairs]
  | cons p rest ih =>
    obtain ⟨a, b⟩ := p
    simp only [List.map_cons, List.nodup_cons] at h1 h2
    simp only [tablePairs, List.map_cons, List.nodup_cons]
    refine ⟨?_, ?_, ih h1.2 h2.2⟩
    · intro hmem
      rcases List.mem_cons.mp hmem with h | h
      · cases h
      · exact h2.1 ((tablePairs_snd_mem_vstr rest b).mp h)
    · intro hmem
      exact h1.1 ((tablePairs_snd_mem_vint rest a).mp hmem)

theorem tablePairs_mem_of_mem (ps : List (Int × String)) (c : Int) (l : String)
    (h : (c, l) ∈ ps) :
    (Val.vint c, Val.vstr l) ∈ tablePairs ps ∧
    (Val.vstr l, Val.vint c) ∈ tablePairs ps := by
  induction ps with
  | nil => cases h
  | cons p rest ih =>
    obtain ⟨a, b⟩ := p
    rcases List.mem_cons.mp h with heq | hrest
    · cases heq
      exact ⟨List.mem_cons_self _ _, List.mem_cons_of_mem _ (List.mem_cons_self _ _)⟩
    · have := ih hrest
      exact ⟨List.mem_cons_of_mem _ (List.mem_cons_of_mem _ this.1),
             List.mem_cons_of_mem _ (List.mem_cons_of_mem _ this.2)⟩

theorem map_swap_tablePairs_fst (ps : List (Int × String)) :
    ((tablePairs ps).map (fun p => (p.2, p.1))).map Prod.fst =
      (tablePairs ps).map Prod.snd := by
  rw [List.map_map]
  rfl

theorem value_table_lookup (ps : List (Int × String))
    (h1 : (ps.map Prod.fst).Nodup) (h2 : (ps.map Prod.snd).Nodup)
    (c : Int) (l : String) (hm : (c, l) ∈ ps) :
    dget (insertEntries [] (tablePairs ps)) (Val.vint c) = some (Val.vstr l) ∧
    dget (insertEntries [] (tablePairs ps)) (Val.vstr l) = some (Val.vint c) := by
  have hnd := tablePairs_fst_nodup ps h1 h2
  have hmm := tablePairs_mem_of_mem ps c l hm
  exact ⟨dget_insertEntries_mem _ _ _ _ hnd hmm.1,
         dget_insertEntries_mem _ _ _ _ hnd hmm.2⟩

theorem reverse_table_lookup (ps : List (Int × String))
    (h1 : (ps.map Prod.fst).Nodup) (h2 : (ps.map Prod.snd).Nodup)
    (c : Int) (l : String) (hm : (c, l) ∈ ps) :
    dget (reverse_comparison_table (insertEntries [] (tablePairs ps)))
      (Val.vstr l) = some (Val.vint c) ∧
    dget (reverse_comparison_table (insertEntries [] (tablePairs ps)))
      (Val.vint c) = some (Val.vstr l) := by
  have hndf := tablePairs_fst_nodup ps h1 h2
  have hnds := tablePairs_snd_nodup ps h1 h2
  have hlist : insertEntries [] (tablePairs ps) = tablePairs ps := by
    rw [insertEntries_fresh (tablePairs ps) [] hndf (fun k _ => rfl), List.nil_append]
  have hmm := tablePairs_mem_of_mem ps c l hm
  have hnd' : (((tablePairs ps).map (fun p => (p.2, p.1))).map Prod.fst).Nodup := by
    rw [map_swap_tablePairs_fst]
    exact hnds
  rw [reverse_comparison_table, hlist]
  exact ⟨dget_insertEntries_mem _ _ _ _ hnd' (List.mem_map_of_mem _ hmm.1),
         dget_insertEntries_mem _ _ _ _ hnd' (List.mem_map_of_mem _ hmm.2)⟩

/-- Claim C5: for every `(code, label)` entry built from the schema
`enum`/`enumDesc` lists (with the `fan_speed_enum` synthetic entry
prepended when applicable, and the lists well-formed: equal lengths, no
duplicate codes, no duplicate labels), encoding a label then decoding the
result through the bidirectional comparison table is the identity, and
decoding a code then encoding the result is the identity; the synthesized
fan-speed entry decodes to its synthetic `'0gear'` label. -/
theorem select_table_roundtrip (identifier : String) (enum : List Int)
    (enumDesc : List String)
    (henum : (effectiveEnum identifier enum).Nodup)
    (hdesc : (effectiveEnumDesc identifier enumDesc).Nodup)
    (hlen : (effectiveEnum identifier enum).length =
      (effectiveEnumDesc identifier enumDesc).length) :
    (∀ code label,
      (code, label) ∈
        (effectiveEnum identifier enum).zip (effectiveEnumDesc identifier enumDesc) →
      select_decode (value_comparison_table identifier enum enumDesc)
        (select_encode
          (reverse_comparison_table (value_comparison_table identifier enum enumDesc))
          (.vstr label)) = .vstr label ∧
      select_encode
        (reverse_comparison_table (value_comparison_table identifier enum enumDesc))
        (select_decode (value_comparison_table identifier enum enumDesc)
          (.vint code)) = .vint code) ∧
    (identifier = "fan_speed_enum" →
      select_decode (value_comparison_table identifier enum enumDesc) (.vint 255) =
        .vstr "0gear") := by
  have h1 : ((((effectiveEnum identifier enum).zip
      (effectiveEnumDesc identifier enumDesc))).map Prod.fst).Nodup := by
    rw [List.map_fst_zip _ _ (le_of_eq hlen)]
    exact henum
  have h2 : ((((effectiveEnum identifier enum).zip
      (effectiveEnumDesc identifier enumDesc))).map Prod.snd).Nodup := by
    rw [List.map_snd_zip _ _ (le_of_eq hlen.symm)]
    exact hdesc
  have hlook : ∀ code label,
      (code, label) ∈
        (effectiveEnum identifier enum).zip (effectiveEnumDesc identifier enumDesc) →
      dget (value_comparison_table identifier enum enumDesc) (Val.vint code) =
          some (Val.vstr label) ∧
      dget (value_comparison_table identifier enum enumDesc) (Val.vstr label) =
          some (Val.vint code) ∧
      dget (reverse_comparison_table (value_comparison_table identifier enum enumDesc))
          (Val.vstr label) = some (Val.vint code) ∧
      dget (reverse_comparison_table (value_comparison_table identifier enum enumDesc))
          (Val.vint code) = some (Val.vstr label) := by
    intro code label hm
    have ht := value_table_lookup _ h1 h2 code label hm
    have hr := reverse_table_lookup _ h1 h2 code label hm
    exact ⟨ht.1, ht.2, hr.1, hr.2⟩
  constructor
  · intro code label hm
    obtain ⟨hvc, hvl, hrl, hrc⟩ := hlook code label hm
    constructor
    · rw [select_encode, hrl, select_decode, hvc]
    · rw [select_decode, hvc, select_encode, hrl]
  · intro hfan
    subst hfan
    have hm : ((255 : Int), "0gear") ∈
        (effectiveEnum "fan_speed_enum" enum).zip
          (effectiveEnumDesc "fan_speed_enum" enumDesc) := by
      simp [effectiveEnum, effectiveEnumDesc]
    obtain ⟨hvc, _, _, _⟩ := hlook 255 "0gear" hm
    rw [select_decode, hvc]

/-- Concrete witness for the claim C5 theorem: the fan-speed select with
codes `[1, 2]` and labels `['low', 'high']` (synthetic `255 ↦ '0gear'`
prepended) round-trips code 1 and decodes 255 to `'0gear'`. -/
theorem select_table_roundtrip_witness :
    select_encode
      (reverse_comparison_table (value_comparison_table "fan_speed_enum" [1, 2] ["low", "high"]))
      (select_decode (value_comparison_table "fan_speed_enum" [1, 2] ["low", "high"])
        (.vint 1)) = .vint 1 ∧
    select_decode (value_comparison_table "fan_speed_enum" [1, 2] ["low", "high"])
      (.vint 255) = .vstr "0gear" :=
  ⟨((select_table_roundtrip "fan_speed_enum" [1, 2] ["low", "high"]
      (by decide) (by decide) (by decide)).1 1 "low" (by decide)).2,
   (select_table_roundtrip "fan_speed_enum" [1, 2] ["low", "high"]
      (by decide) (by decide) (by decide)).2 rfl⟩
